import Mathlib

/-!
Verification of the TexSwap demo constant-product AMM simulation
(`src/simulation.py`): the swap calculator `calculate_swap` and the
sequential batch processor `run_batcher`.

The Python reference works on IEEE doubles; the embedding uses exact
rational arithmetic (`ℚ`), which matches the formulas of the code
symbol-for-symbol.  Python raises `ZeroDivisionError` on float division
by zero; the embedding returns `Except.error .zeroDivisionError` there.
-/

set_option maxRecDepth 100000

namespace TexSwap

/-- Pool UTxO: reserves of the two tokens and the swap fee
(`PoolState` in `src/simulation.py`, default fee 0.3%). -/
structure PoolState where
  reserve_a : ℚ
  reserve_b : ℚ
  fee_percent : ℚ := 3 / 1000
deriving DecidableEq, Repr

/-- The constant-product invariant `K = x * y` (`PoolState.constant_k`). -/
def PoolState.constant_k (p : PoolState) : ℚ :=
  p.reserve_a * p.reserve_b

/-- A user's swap order (`OrderUTxO` in `src/simulation.py`).  The token
tag is a string, exactly as in the source, so unrecognized tags are
representable. -/
structure OrderUTxO where
  user_id : String
  token_in_type : String
  amount_in : ℚ
  min_amount_out : ℚ
deriving DecidableEq, Repr

/-- Failure modes of the calculator.  `zeroDivisionError` models Python's
`ZeroDivisionError`, the only failure the code in `src/simulation.py`
can actually raise.

Modelled from the spec: `invalidOrder` and `invalidPool` are the error
taxonomy of the spec's error-handling design (negative amounts,
unrecognized token tag, fee rate outside `[0,1)`, degenerate pool);
no code in `src/` constructs them, they exist so the spec's claims
about them can be stated. -/
inductive CalcError where
  | zeroDivisionError
  | invalidOrder
  | invalidPool
deriving DecidableEq, Repr

/-- Rejection status string returned by the calculator. -/
def REJECTED : String := "REJECTED_SLIPPAGE_TOO_HIGH"

/-- Success status string returned by the calculator. -/
def SUCCESS : String := "SUCCESS"

/-- `calculate_swap(pool, order)` from `src/simulation.py`, line for line:
select in/out reserves by the token tag (`"A"` vs anything else), deduct
the fee from the input, apply the constant-product formula, then the
slippage check.  Returns `(amount_out, fee_paid, status)`; the division
raises (`zeroDivisionError`) when the denominator is zero, before the
slippage check, exactly as in Python. -/
def calculate_swap (pool : PoolState) (order : OrderUTxO) :
    Except CalcError (ℚ × ℚ × String) :=
  let reserve_in := if order.token_in_type = "A" then pool.reserve_a else pool.reserve_b
  let reserve_out := if order.token_in_type = "A" then pool.reserve_b else pool.reserve_a
  let amount_in_with_fee := order.amount_in * (1 - pool.fee_percent)
  let numerator := amount_in_with_fee * reserve_out
  let denominator := reserve_in + amount_in_with_fee
  if denominator = 0 then
    .error .zeroDivisionError
  else
    let amount_out := numerator / denominator
    if amount_out < order.min_amount_out then
      .ok (0, 0, REJECTED)
    else
      .ok (amount_out, order.amount_in - amount_in_with_fee, SUCCESS)

/-- The pure output amount of the constant-product formula, as a function:
`amount_in_with_fee * reserve_out / (reserve_in + amount_in_with_fee)`
with the reserves selected by the order's token tag.  This is the
"computed `amount_out`" the slippage check compares against. -/
def swapAmountOut (pool : PoolState) (order : OrderUTxO) : ℚ :=
  let reserve_in := if order.token_in_type = "A" then pool.reserve_a else pool.reserve_b
  let reserve_out := if order.token_in_type = "A" then pool.reserve_b else pool.reserve_a
  let amount_in_with_fee := order.amount_in * (1 - pool.fee_percent)
  amount_in_with_fee * reserve_out / (reserve_in + amount_in_with_fee)

/-- One settlement entry of the batcher's `processed_txs` list
(the dict `{to, receive, token}` built in `run_batcher`). -/
structure SettlementRecord where
  to_user : String  -- the dict key "to" in the source; `to` is a Lean keyword
  receive : ℚ
  token : String
deriving DecidableEq, Repr

/-- The pool update performed by the `SUCCESS` branch of `run_batcher`'s
loop body: credit the in-token reserve with `order.amount_in`, debit the
out-token reserve by `amount_out`. -/
def applySuccess (pool : PoolState) (order : OrderUTxO) (amount_out : ℚ) : PoolState :=
  if order.token_in_type = "A" then
    { pool with
        reserve_a := pool.reserve_a + order.amount_in
        reserve_b := pool.reserve_b - amount_out }
  else
    { pool with
        reserve_b := pool.reserve_b + order.amount_in
        reserve_a := pool.reserve_a - amount_out }

/-- The settlement record the `SUCCESS` branch of `run_batcher` appends:
pay the requester the computed amount in the opposite token. -/
def settlementRecord (order : OrderUTxO) (amount_out : ℚ) : SettlementRecord :=
  { to_user := order.user_id
    receive := amount_out
    token := if order.token_in_type = "A" then "B" else "A" }

/-- `run_batcher(pool_utxo, list_of_orders)` from `src/simulation.py`
(its computational content; console printing dropped): process the
orders strictly in sequence, threading the mutated pool, appending a
settlement record per successful order, skipping rejected orders; an
exception from `calculate_swap` aborts the whole run. -/
def run_batcher (pool_utxo : PoolState) (list_of_orders : List OrderUTxO) :
    Except CalcError (PoolState × List SettlementRecord) :=
  match list_of_orders with
  | [] => .ok (pool_utxo, [])
  | order :: rest => do
    let (amount_out, _fee, status) ← calculate_swap pool_utxo order
    if status = SUCCESS then
      let (final_pool, txs) ← run_batcher (applySuccess pool_utxo order amount_out) rest
      .ok (final_pool, settlementRecord order amount_out :: txs)
    else
      run_batcher pool_utxo rest

/-- The driver's initial pool: 1000 token A against 2000 token B,
fee 0.3% (`my_pool` in `src/simulation.py`). -/
def my_pool : PoolState := { reserve_a := 1000, reserve_b := 2000 }

/-- Alice's order from the driver: swap 100 of token A, accept at least 180. -/
def aliceOrder : OrderUTxO :=
  { user_id := "Alice", token_in_type := "A", amount_in := 100, min_amount_out := 180 }

/-- Bob's order from the driver: swap 500 of token A, accept at least 900. -/
def bobOrder : OrderUTxO :=
  { user_id := "Bob", token_in_type := "A", amount_in := 500, min_amount_out := 900 }

/-- Charlie's order from the driver: swap 50 of token B, accept at least 20. -/
def charlieOrder : OrderUTxO :=
  { user_id := "Charlie", token_in_type := "B", amount_in := 50, min_amount_out := 20 }

/-- The driver's mempool: Alice, Bob, Charlie in this order. -/
def orders : List OrderUTxO := [aliceOrder, bobOrder, charlieOrder]

/-- A well-formed pool as the spec's data model describes it: strictly
positive reserves and a fee rate in `[0,1)`. -/
def ValidPool (p : PoolState) : Prop :=
  0 < p.reserve_a ∧ 0 < p.reserve_b ∧ 0 ≤ p.fee_percent ∧ p.fee_percent < 1

/-- Pools reachable from `p` by zero or more successful swaps of
well-formed orders (non-negative input amount), each applied with the
batcher's reserve update. -/
inductive Reachable : PoolState → PoolState → Prop where
  | refl (p : PoolState) : Reachable p p
  | step (p q : PoolState) (o : OrderUTxO) (a f : ℚ) :
      Reachable p q → 0 ≤ o.amount_in →
      calculate_swap q o = .ok (a, f, SUCCESS) →
      Reachable p (applySuccess q o a)

/-- A heap of pool objects, indexed by object identity.  Used to model
Python's reference semantics: `current_pool = pool_utxo` copies the
reference, and `current_pool.reserve_a += ...` mutates the shared
object. -/
def Store : Type := Nat → PoolState

/-- `run_batcher` again, but at the level of object references, exactly
as Python executes it: the loop reads and writes the pool object through
the reference `current_pool`, which is the very reference the caller
passed in (`current_pool = pool_utxo` on line 79 of the source copies no
data). -/
def run_batcherRef (store : Store) (current_pool : Nat)
    (list_of_orders : List OrderUTxO) :
    Except CalcError (Store × List SettlementRecord) :=
  match list_of_orders with
  | [] => .ok (store, [])
  | order :: rest => do
    let (amount_out, _fee, status) ← calculate_swap (store current_pool) order
    if status = SUCCESS then
      let mutated : Store := fun r =>
        if r = current_pool then applySuccess (store current_pool) order amount_out
        else store r
      let (final_store, txs) ← run_batcherRef mutated current_pool rest
      .ok (final_store, settlementRecord order amount_out :: txs)
    else
      run_batcherRef store current_pool rest

/-- The per-order outcome trace of a batch: each order paired with the
amount and status `calculate_swap` produced for it, threading the pool
exactly as the batcher does; the trace stops where the run would raise. -/
def outcomeTrace (pool : PoolState) : List OrderUTxO → List (OrderUTxO × ℚ × String)
  | [] => []
  | o :: rest =>
    match calculate_swap pool o with
    | .error _ => []
    | .ok (a, _f, s) =>
      (o, a, s) :: outcomeTrace (if s = SUCCESS then applySuccess pool o a else pool) rest

/-- The settlement record an outcome gives rise to: one per `SUCCESS`
outcome, none otherwise. -/
def settlementOfOutcome (x : OrderUTxO × ℚ × String) : Option SettlementRecord :=
  if x.2.2 = SUCCESS then some (settlementRecord x.1 x.2.1) else none

/-- The pool after Alice's swap: `1100` of token A and
`20000000/10997 ≈ 1818.68` of token B. -/
def poolAfterAlice : PoolState :=
  { reserve_a := 1100, reserve_b := 20000000 / 10997 }

/-- The pool after all three driver orders: `≈ 1070.65` of token A and
`≈ 1868.68` of token B. -/
def finalPool : PoolState :=
  { reserve_a := 440000000000 / 410964009, reserve_b := 20549850 / 10997 }

/-- Alice's settlement: `1994000/10997 ≈ 181.32` of token B. -/
def aliceSettlement : SettlementRecord :=
  { to_user := "Alice", receive := 1994000 / 10997, token := "B" }

/-- Charlie's settlement: `12060409900/410964009 ≈ 29.35` of token A. -/
def charlieSettlement : SettlementRecord :=
  { to_user := "Charlie", receive := 12060409900 / 410964009, token := "A" }

/-- A pool whose token-A reserve is empty (not produced by the driver;
used to probe the calculator's edge cases). -/
def emptyAPool : PoolState := { reserve_a := 0, reserve_b := 2000 }

/-- An order with a negative input amount and a very low slippage floor:
invalid per the spec's data model. -/
def negativeOrder : OrderUTxO :=
  { user_id := "Mallory", token_in_type := "A", amount_in := -5, min_amount_out := -1000 }

/-- A pool whose fee rate `2` lies outside `[0,1)`: invalid per the
spec's data model. -/
def badFeePool : PoolState := { reserve_a := 1000, reserve_b := 2000, fee_percent := 2 }

/-- An A-input order of 100 with no slippage floor. -/
def hundredOrder : OrderUTxO :=
  { user_id := "Eve", token_in_type := "A", amount_in := 100, min_amount_out := 0 }

/-- An A-input order of amount zero with slippage floor zero. -/
def zeroOrder : OrderUTxO :=
  { user_id := "Zed", token_in_type := "A", amount_in := 0, min_amount_out := 0 }

/-- An order whose token tag `"X"` is neither `"A"` nor `"B"`. -/
def daveOrder : OrderUTxO :=
  { user_id := "Dave", token_in_type := "X", amount_in := 50, min_amount_out := 0 }

/-- A heap holding `my_pool` at every reference (reference `0` is the
caller's pool object). -/
def store0 : Store := fun _ => my_pool

/-- `store0` after Alice's swap has been written through reference `0`. -/
def store1 : Store := fun r => if r = 0 then poolAfterAlice else my_pool

/-! ### Helper lemmas -/

lemma except_bind_ok {ε α β : Type} (a : α) (g : α → Except ε β) :
    (Except.ok a >>= g : Except ε β) = g a := rfl

lemma except_bind_err {ε α β : Type} (e : ε) (g : α → Except ε β) :
    (Except.error e >>= g : Except ε β) = Except.error e := rfl

lemma rejected_ne_success : REJECTED ≠ SUCCESS := by decide

/-- Inversion of `calculate_swap` returning normally: the denominator
was nonzero, and the result is the rejection triple or the success
triple according to the slippage comparison. -/
lemma calculate_swap_ok_inv (pool : PoolState) (order : OrderUTxO)
    (a f : ℚ) (s : String)
    (h : calculate_swap pool order = .ok (a, f, s)) :
    (if order.token_in_type = "A" then pool.reserve_a else pool.reserve_b) +
        order.amount_in * (1 - pool.fee_percent) ≠ 0 ∧
    ((s = REJECTED ∧ a = 0 ∧ f = 0 ∧
        swapAmountOut pool order < order.min_amount_out) ∨
     (s = SUCCESS ∧ a = swapAmountOut pool order ∧
        f = order.amount_in - order.amount_in * (1 - pool.fee_percent) ∧
        ¬ swapAmountOut pool order < order.min_amount_out)) := by
  by_cases ht : order.token_in_type = "A" <;>
    simp only [calculate_swap, swapAmountOut, ht, if_true, if_false, ite_true, ite_false] at h ⊢ <;>
    split at h
  case pos.isTrue => exact absurd h (by simp)
  case pos.isFalse hden =>
    refine ⟨hden, ?_⟩
    split at h <;> rename_i hlt <;>
      simp only [Except.ok.injEq, Prod.mk.injEq] at h
    · exact Or.inl ⟨h.2.2.symm, h.1.symm, h.2.1.symm, hlt⟩
    · exact Or.inr ⟨h.2.2.symm, h.1.symm, h.2.1.symm, hlt⟩
  case neg.isTrue => exact absurd h (by simp)
  case neg.isFalse hden =>
    refine ⟨hden, ?_⟩
    split at h <;> rename_i hlt <;>
      simp only [Except.ok.injEq, Prod.mk.injEq] at h
    · exact Or.inl ⟨h.2.2.symm, h.1.symm, h.2.1.symm, hlt⟩
    · exact Or.inr ⟨h.2.2.symm, h.1.symm, h.2.1.symm, hlt⟩

/-- Inversion of `calculate_swap` raising: only the zero denominator does it. -/
lemma calculate_swap_error_inv (pool : PoolState) (order : OrderUTxO)
    (e : CalcError) (h : calculate_swap pool order = .error e) :
    e = .zeroDivisionError ∧
    (if order.token_in_type = "A" then pool.reserve_a else pool.reserve_b) +
        order.amount_in * (1 - pool.fee_percent) = 0 := by
  by_cases ht : order.token_in_type = "A" <;>
    simp only [calculate_swap, ht, if_true, if_false, ite_true, ite_false] at h ⊢ <;>
    split at h
  case pos.isTrue hden =>
    simp only [Except.error.injEq] at h
    exact ⟨h.symm, hden⟩
  case pos.isFalse => split at h <;> exact absurd h (by simp)
  case neg.isTrue hden =>
    simp only [Except.error.injEq] at h
    exact ⟨h.symm, hden⟩
  case neg.isFalse => split at h <;> exact absurd h (by simp)

/-- The batcher on a successful head order: update the pool, run the
rest, prepend the settlement record. -/
lemma run_batcher_cons_success (pool : PoolState) (o : OrderUTxO)
    (rest : List OrderUTxO) (a f : ℚ)
    (h : calculate_swap pool o = .ok (a, f, SUCCESS)) :
    run_batcher pool (o :: rest) =
      (do
        let (final_pool, txs) ← run_batcher (applySuccess pool o a) rest
        Except.ok (final_pool, settlementRecord o a :: txs)) := by
  simp only [run_batcher, h, except_bind_ok, ite_true, if_true]

/-- The batcher on a rejected head order: skip it, nothing changes. -/
lemma run_batcher_cons_rejected (pool : PoolState) (o : OrderUTxO)
    (rest : List OrderUTxO) (a f : ℚ)
    (h : calculate_swap pool o = .ok (a, f, REJECTED)) :
    run_batcher pool (o :: rest) = run_batcher pool rest := by
  simp only [run_batcher, h, except_bind_ok]
  exact if_neg (by decide)

/-- The batcher on a raising head order: the whole run aborts. -/
lemma run_batcher_cons_error (pool : PoolState) (o : OrderUTxO)
    (rest : List OrderUTxO) (e : CalcError)
    (h : calculate_swap pool o = .error e) :
    run_batcher pool (o :: rest) = .error e := by
  simp only [run_batcher, h, except_bind_err]

/-! ### Concrete evaluations of the driver's scenario -/

lemma if_token_A {α : Type} (x y : α) : (if ("A" : String) = "A" then x else y) = x :=
  if_pos rfl

lemma if_token_B {α : Type} (x y : α) : (if ("B" : String) = "A" then x else y) = y :=
  if_neg (by decide)

lemma if_token_X {α : Type} (x y : α) : (if ("X" : String) = "A" then x else y) = y :=
  if_neg (by decide)

lemma calc_alice : calculate_swap my_pool aliceOrder =
    .ok (1994000 / 10997, 3 / 10, SUCCESS) := by
  simp only [calculate_swap, my_pool, aliceOrder, if_token_A]
  norm_num

lemma apply_alice : applySuccess my_pool aliceOrder (1994000 / 10997) = poolAfterAlice := by
  simp only [applySuccess, my_pool, aliceOrder, poolAfterAlice, if_token_A]
  norm_num

lemma calc_bob : calculate_swap poolAfterAlice bobOrder = .ok (0, 0, REJECTED) := by
  simp only [calculate_swap, poolAfterAlice, bobOrder, if_token_A]
  norm_num

lemma calc_charlie : calculate_swap poolAfterAlice charlieOrder =
    .ok (12060409900 / 410964009, 3 / 20, SUCCESS) := by
  simp only [calculate_swap, poolAfterAlice, charlieOrder, if_token_B]
  norm_num

lemma apply_charlie :
    applySuccess poolAfterAlice charlieOrder (12060409900 / 410964009) = finalPool := by
  simp only [applySuccess, poolAfterAlice, charlieOrder, finalPool, if_token_B]
  norm_num

lemma settle_alice : settlementRecord aliceOrder (1994000 / 10997) = aliceSettlement := by
  simp only [settlementRecord, aliceOrder, aliceSettlement, if_token_A, ite_true]

lemma settle_charlie :
    settlementRecord charlieOrder (12060409900 / 410964009) = charlieSettlement := by
  simp only [settlementRecord, charlieOrder, charlieSettlement, if_token_B, ite_true, ite_false]

lemma run_scenario : run_batcher my_pool orders =
    .ok (finalPool, [aliceSettlement, charlieSettlement]) := by
  have h1 := run_batcher_cons_success my_pool aliceOrder [bobOrder, charlieOrder]
    _ _ calc_alice
  rw [apply_alice] at h1
  have h2 := run_batcher_cons_rejected poolAfterAlice bobOrder [charlieOrder] _ _ calc_bob
  have h3 := run_batcher_cons_success poolAfterAlice charlieOrder [] _ _ calc_charlie
  rw [apply_charlie] at h3
  rw [show orders = aliceOrder :: [bobOrder, charlieOrder] from rfl, h1, h2, h3]
  simp only [run_batcher, except_bind_ok, settle_alice, settle_charlie]

lemma calc_dave : calculate_swap my_pool daveOrder =
    .ok (997000 / 40997, 3 / 20, SUCCESS) := by
  simp only [calculate_swap, my_pool, daveOrder, if_token_X]
  norm_num

lemma refRun_alice : run_batcherRef store0 0 [aliceOrder] =
    .ok (store1, [aliceSettlement]) := by
  have h : calculate_swap (store0 0) aliceOrder =
      .ok (1994000 / 10997, 3 / 10, SUCCESS) := calc_alice
  simp only [run_batcherRef, h, except_bind_ok, ite_true, eq_self_iff_true,
    settle_alice]
  have hstores : (fun r => if r = 0 then
      applySuccess (store0 0) aliceOrder (1994000 / 10997) else store0 r) = store1 := by
    funext r
    by_cases hr0 : r = 0
    · simp only [hr0, ite_true, eq_self_iff_true, store1]
      exact apply_alice
    · simp only [store1, store0, hr0, ite_false, if_neg hr0]
  rw [hstores]

/-! ### Arithmetic facts about one successful swap -/

lemma fee_net_nonneg {ain fee : ℚ} (ha : 0 ≤ ain) (hf : fee < 1) :
    0 ≤ ain * (1 - fee) :=
  mul_nonneg ha (by linarith)

lemma out_lt_reserve {rin rout net : ℚ} (hrin : 0 < rin) (hrout : 0 < rout)
    (hnet : 0 ≤ net) : net * rout / (rin + net) < rout := by
  rw [div_lt_iff₀ (by linarith)]
  nlinarith

lemma out_nonneg {rin rout net : ℚ} (hrin : 0 < rin) (hrout : 0 ≤ rout)
    (hnet : 0 ≤ net) : 0 ≤ net * rout / (rin + net) :=
  div_nonneg (mul_nonneg hnet hrout) (by linarith)

/-- The product of reserves after a successful swap, written as the old
product plus the fee contribution. -/
lemma k_product_shift (rin rout fee ain : ℚ) (hrin : 0 < rin)
    (hf1 : fee < 1) (ha : 0 ≤ ain) :
    (rin + ain) * (rout - ain * (1 - fee) * rout / (rin + ain * (1 - fee))) =
      rin * rout + rin * rout * (ain * fee) / (rin + ain * (1 - fee)) := by
  have hnet : 0 ≤ ain * (1 - fee) := fee_net_nonneg ha hf1
  have hd : rin + ain * (1 - fee) ≠ 0 := by linarith
  field_simp
  ring

/-- All facts about one successful swap over abstract in/out reserves:
positivity of the updated reserves, and monotonicity of the reserve
product with its exact equality condition. -/
lemma core_step_facts (rin rout fee ain : ℚ) (hrin : 0 < rin) (hrout : 0 < rout)
    (hf0 : 0 ≤ fee) (hf1 : fee < 1) (ha : 0 ≤ ain) :
    0 < rin + ain ∧
    0 < rout - ain * (1 - fee) * rout / (rin + ain * (1 - fee)) ∧
    rin * rout ≤
      (rin + ain) * (rout - ain * (1 - fee) * rout / (rin + ain * (1 - fee))) ∧
    (0 < fee → 0 < ain →
      rin * rout <
        (rin + ain) * (rout - ain * (1 - fee) * rout / (rin + ain * (1 - fee)))) ∧
    ((rin + ain) * (rout - ain * (1 - fee) * rout / (rin + ain * (1 - fee))) =
        rin * rout ↔ fee = 0 ∨ ain = 0) := by
  have hnet : 0 ≤ ain * (1 - fee) := fee_net_nonneg ha hf1
  have hdpos : 0 < rin + ain * (1 - fee) := by linarith
  have hout := out_lt_reserve hrin hrout hnet
  have hshift := k_product_shift rin rout fee ain hrin hf1 ha
  have hterm : 0 ≤ rin * rout * (ain * fee) / (rin + ain * (1 - fee)) :=
    div_nonneg (mul_nonneg (mul_pos hrin hrout).le (mul_nonneg ha hf0)) hdpos.le
  refine ⟨by linarith, by linarith, by linarith, ?_, ?_⟩
  · intro hfee hain
    have : 0 < rin * rout * (ain * fee) / (rin + ain * (1 - fee)) :=
      div_pos (mul_pos (mul_pos hrin hrout) (mul_pos hain hfee)) hdpos
    linarith
  · rw [hshift]
    have hzero : rin * rout + rin * rout * (ain * fee) / (rin + ain * (1 - fee)) =
        rin * rout ↔ rin * rout * (ain * fee) / (rin + ain * (1 - fee)) = 0 := by
      constructor <;> intro hx <;> linarith
    rw [hzero, div_eq_zero_iff]
    constructor
    · rintro (hx | hx)
      · rcases mul_eq_zero.mp hx with hx' | hx'
        · exact absurd hx' (mul_pos hrin hrout).ne'
        · rcases mul_eq_zero.mp hx' with h1 | h1
          · exact Or.inr h1
          · exact Or.inl h1
      · exact absurd hx hdpos.ne'
    · rintro (hx | hx)
      · left; rw [hx]; ring
      · left; rw [hx]; ring

/-- Everything one successful swap of a well-formed order does to a
well-formed pool: the pool stays well-formed and the reserve product is
non-decreasing, strictly increasing exactly when both the fee and the
input amount are nonzero. -/
lemma success_step_all (pool : PoolState) (order : OrderUTxO) (a f : ℚ)
    (hp : ValidPool pool) (ha : 0 ≤ order.amount_in)
    (h : calculate_swap pool order = .ok (a, f, SUCCESS)) :
    ValidPool (applySuccess pool order a) ∧
    pool.constant_k ≤ (applySuccess pool order a).constant_k ∧
    (0 < pool.fee_percent → 0 < order.amount_in →
      pool.constant_k < (applySuccess pool order a).constant_k) ∧
    ((applySuccess pool order a).constant_k = pool.constant_k ↔
      pool.fee_percent = 0 ∨ order.amount_in = 0) := by
  obtain ⟨h1, h2, h3, h4⟩ := hp
  rcases (calculate_swap_ok_inv pool order a f SUCCESS h).2 with ⟨hs, _⟩ | ⟨_, haeq, _, _⟩
  · exact absurd hs.symm rejected_ne_success
  · subst haeq
    by_cases ht : order.token_in_type = "A"
    · have key := core_step_facts pool.reserve_a pool.reserve_b pool.fee_percent
        order.amount_in h1 h2 h3 h4 ha
      obtain ⟨k1, k2, k3, k4, k5⟩ := key
      simp only [applySuccess, PoolState.constant_k, swapAmountOut, ValidPool, ht,
        ite_true] at k1 k2 k3 k4 k5 ⊢
      exact ⟨⟨k1, k2, h3, h4⟩, k3, k4, k5⟩
    · have key := core_step_facts pool.reserve_b pool.reserve_a pool.fee_percent
        order.amount_in h2 h1 h3 h4 ha
      obtain ⟨k1, k2, k3, k4, k5⟩ := key
      simp only [applySuccess, PoolState.constant_k, swapAmountOut, ValidPool, ht,
        ite_false] at k1 k2 k3 k4 k5 ⊢
      have e1 : pool.reserve_a * pool.reserve_b = pool.reserve_b * pool.reserve_a :=
        mul_comm _ _
      refine ⟨⟨k2, k1, h3, h4⟩, ?_, ?_, ?_⟩
      · nlinarith [k3]
      · intro hfee hain
        nlinarith [k4 hfee hain]
      · rw [mul_comm, e1]
        exact k5

/-- The only error a whole batch run can end in is the division by zero
raised inside `calculate_swap`. -/
lemma run_batcher_error_inv (pool : PoolState) (os : List OrderUTxO)
    (e : CalcError) (h : run_batcher pool os = .error e) :
    e = .zeroDivisionError := by
  induction os generalizing pool with
  | nil => exact absurd h (by simp [run_batcher])
  | cons o rest ih =>
    cases hc : calculate_swap pool o with
    | error e' =>
      rw [run_batcher_cons_error pool o rest e' hc, Except.error.injEq] at h
      rw [← h]
      exact (calculate_swap_error_inv pool o e' hc).1
    | ok t =>
      obtain ⟨a, f, s⟩ := t
      rcases (calculate_swap_ok_inv pool o a f s hc).2 with ⟨hs, _⟩ | ⟨hs, _⟩
      · subst hs
        rw [run_batcher_cons_rejected pool o rest a f hc] at h
        exact ih _ h
      · subst hs
        rw [run_batcher_cons_success pool o rest a f hc] at h
        cases hr : run_batcher (applySuccess pool o a) rest with
        | error e2 =>
          rw [hr, except_bind_err, Except.error.injEq] at h
          subst h
          exact ih _ hr
        | ok pr =>
          rw [hr, except_bind_ok] at h
          exact absurd h (by simp)

/-! ### Claim theorems -/

/-- C1: whenever `calculate_swap` returns outcome `SUCCESS`, the reported
amount out is `amount_in_net * reserve_out / (reserve_in + amount_in_net)`
with `amount_in_net = amount_in * (1 - fee_percent)` and the reserves
selected by the order's token tag (`"A"` selects `reserve_a` as the
in-reserve, anything else `reserve_b`), and the reported fee is
`amount_in - amount_in_net`. -/
theorem C1_success_formula (pool : PoolState) (order : OrderUTxO) (a f : ℚ)
    (h : calculate_swap pool order = .ok (a, f, SUCCESS)) :
    a = order.amount_in * (1 - pool.fee_percent) *
          (if order.token_in_type = "A" then pool.reserve_b else pool.reserve_a) /
        ((if order.token_in_type = "A" then pool.reserve_a else pool.reserve_b) +
          order.amount_in * (1 - pool.fee_percent)) ∧
    f = order.amount_in - order.amount_in * (1 - pool.fee_percent) := by
  rcases (calculate_swap_ok_inv pool order a f SUCCESS h).2 with ⟨hs, _⟩ | ⟨_, ha, hf, _⟩
  · exact absurd hs.symm rejected_ne_success
  · refine ⟨?_, hf⟩
    rw [ha]
    by_cases ht : order.token_in_type = "A" <;> simp [swapAmountOut, ht]

/-- C1 witness: the formula evaluated at the driver's pool and Alice's
order. -/
theorem C1_witness :
    calculate_swap my_pool aliceOrder = .ok (1994000 / 10997, 3 / 10, SUCCESS) ∧
    ((1994000 / 10997 : ℚ) = aliceOrder.amount_in * (1 - my_pool.fee_percent) *
          (if aliceOrder.token_in_type = "A" then my_pool.reserve_b else my_pool.reserve_a) /
        ((if aliceOrder.token_in_type = "A" then my_pool.reserve_a else my_pool.reserve_b) +
          aliceOrder.amount_in * (1 - my_pool.fee_percent)) ∧
     (3 / 10 : ℚ) = aliceOrder.amount_in - aliceOrder.amount_in * (1 - my_pool.fee_percent)) :=
  ⟨calc_alice, C1_success_formula my_pool aliceOrder _ _ calc_alice⟩

/-- C2: a normal return of `calculate_swap` carries status
`REJECTED_SLIPPAGE_TOO_HIGH` exactly when the computed amount out is
below the order's slippage floor, in which case the reported amount and
fee are both zero; and the batcher handles a rejected head order by
leaving the pool untouched, appending no settlement record, and
continuing with the remaining orders. -/
theorem C2_slippage_rejection :
    (∀ pool order a f s, calculate_swap pool order = .ok (a, f, s) →
      ((s = REJECTED ↔ swapAmountOut pool order < order.min_amount_out) ∧
       (s = REJECTED → a = 0 ∧ f = 0))) ∧
    (∀ pool order rest a f,
      calculate_swap pool order = .ok (a, f, REJECTED) →
      run_batcher pool (order :: rest) = run_batcher pool rest) := by
  constructor
  · intro pool order a f s h
    rcases (calculate_swap_ok_inv pool order a f s h).2 with
      ⟨hs, h0, hf0, hlt⟩ | ⟨hs, _, _, hnlt⟩
    · subst hs
      exact ⟨⟨fun _ => hlt, fun _ => rfl⟩, fun _ => ⟨h0, hf0⟩⟩
    · subst hs
      refine ⟨⟨?_, ?_⟩, ?_⟩
      · intro hr; exact absurd hr.symm rejected_ne_success
      · intro hlt; exact absurd hlt hnlt
      · intro hr; exact absurd hr.symm rejected_ne_success
  · exact fun pool order rest a f h => run_batcher_cons_rejected pool order rest a f h

/-- C2 witness: Bob's order against the post-Alice pool is rejected for
slippage, reported as zeros, and skipping it leaves the batch to
continue on the unchanged pool. -/
theorem C2_witness :
    calculate_swap poolAfterAlice bobOrder = .ok (0, 0, REJECTED) ∧
    ((REJECTED = REJECTED ↔
        swapAmountOut poolAfterAlice bobOrder < bobOrder.min_amount_out) ∧
      (REJECTED = REJECTED → (0 : ℚ) = 0 ∧ (0 : ℚ) = 0)) ∧
    run_batcher poolAfterAlice (bobOrder :: [charlieOrder]) =
      run_batcher poolAfterAlice [charlieOrder] :=
  ⟨calc_bob, C2_slippage_rejection.1 poolAfterAlice bobOrder 0 0 REJECTED calc_bob,
    C2_slippage_rejection.2 poolAfterAlice bobOrder [charlieOrder] 0 0 calc_bob⟩

/-- C3 counterexample: on a pool whose in-reserve is zero the calculator
happily succeeds with `amount_out` equal to the whole out-reserve, so
the claim's unconditional `amount_out < reserve_out` is false in the
code: the pool is drained completely. -/
theorem C3_counterexample :
    calculate_swap emptyAPool hundredOrder = .ok (2000, 3 / 10, SUCCESS) ∧
    ¬ ((2000 : ℚ) < emptyAPool.reserve_b) := by
  constructor
  · simp only [calculate_swap, emptyAPool, hundredOrder, if_token_A]
    norm_num
  · simp only [emptyAPool]
    norm_num

/-- C3 (amended): for a well-formed pool (positive reserves, fee in
`[0,1)`) and an order with non-negative amount, a successful batch step
adds `amount_in` to the in-token reserve and subtracts `amount_out` from
the out-token reserve exactly, and `amount_out` is strictly below the
out-token reserve. -/
theorem C3_conservation (pool : PoolState) (order : OrderUTxO) (a f : ℚ)
    (hp : ValidPool pool) (ha : 0 ≤ order.amount_in)
    (h : calculate_swap pool order = .ok (a, f, SUCCESS)) :
    (order.token_in_type = "A" →
      (applySuccess pool order a).reserve_a = pool.reserve_a + order.amount_in ∧
      (applySuccess pool order a).reserve_b = pool.reserve_b - a ∧
      a < pool.reserve_b) ∧
    (order.token_in_type ≠ "A" →
      (applySuccess pool order a).reserve_b = pool.reserve_b + order.amount_in ∧
      (applySuccess pool order a).reserve_a = pool.reserve_a - a ∧
      a < pool.reserve_a) := by
  obtain ⟨h1, h2, h3, h4⟩ := hp
  rcases (calculate_swap_ok_inv pool order a f SUCCESS h).2 with ⟨hs, _⟩ | ⟨_, haeq, _, _⟩
  · exact absurd hs.symm rejected_ne_success
  · subst haeq
    have hnet : 0 ≤ order.amount_in * (1 - pool.fee_percent) := fee_net_nonneg ha h4
    constructor
    · intro ht
      refine ⟨by simp [applySuccess, ht], by simp [applySuccess, ht], ?_⟩
      have := out_lt_reserve h1 h2 hnet
      simpa [swapAmountOut, ht] using this
    · intro ht
      refine ⟨by simp [applySuccess, ht], by simp [applySuccess, ht], ?_⟩
      have := out_lt_reserve h2 h1 hnet
      simpa [swapAmountOut, ht] using this

/-- C3 witness: the conservation equalities and the strict drain bound at
Alice's swap on the driver's pool. -/
theorem C3_witness :
    ValidPool my_pool ∧ (0 : ℚ) ≤ aliceOrder.amount_in ∧
    calculate_swap my_pool aliceOrder = .ok (1994000 / 10997, 3 / 10, SUCCESS) ∧
    ((applySuccess my_pool aliceOrder (1994000 / 10997)).reserve_a =
        my_pool.reserve_a + aliceOrder.amount_in ∧
      (applySuccess my_pool aliceOrder (1994000 / 10997)).reserve_b =
        my_pool.reserve_b - 1994000 / 10997 ∧
      (1994000 / 10997 : ℚ) < my_pool.reserve_b) := by
  have hv : ValidPool my_pool :=
    ⟨by norm_num [my_pool], by norm_num [my_pool], by norm_num [my_pool],
      by norm_num [my_pool]⟩
  have ha : (0 : ℚ) ≤ aliceOrder.amount_in := by norm_num [aliceOrder]
  exact ⟨hv, ha, calc_alice,
    (C3_conservation my_pool aliceOrder _ _ hv ha calc_alice).1 rfl⟩

/-- C4 counterexample: a successful zero-amount swap on a pool with
nonzero fee leaves the reserve product exactly unchanged, so the claim's
"equality only when `fee_rate == 0`" is false in the code. -/
theorem C4_counterexample :
    calculate_swap my_pool zeroOrder = .ok (0, 0, SUCCESS) ∧
    (applySuccess my_pool zeroOrder 0).constant_k = my_pool.constant_k ∧
    my_pool.fee_percent ≠ 0 := by
  refine ⟨?_, ?_, ?_⟩
  · simp only [calculate_swap, my_pool, zeroOrder, if_token_A]
    norm_num
  · simp only [applySuccess, my_pool, zeroOrder, PoolState.constant_k, if_token_A]
    norm_num
  · simp only [my_pool]
    norm_num

/-- C4 (amended): every pool reachable from a well-formed pool by
successful swaps of non-negative orders keeps both reserves strictly
positive, and each further successful swap leaves the reserve product
non-decreasing — strictly increasing when the fee and the amount are
both positive, with equality exactly when the fee or the amount is
zero. -/
theorem C4_invariant (p₀ p : PoolState) (h0 : ValidPool p₀) (hr : Reachable p₀ p) :
    (0 < p.reserve_a ∧ 0 < p.reserve_b) ∧
    ∀ o a f, 0 ≤ o.amount_in → calculate_swap p o = .ok (a, f, SUCCESS) →
      p.constant_k ≤ (applySuccess p o a).constant_k ∧
      (0 < p.fee_percent → 0 < o.amount_in →
        p.constant_k < (applySuccess p o a).constant_k) ∧
      ((applySuccess p o a).constant_k = p.constant_k ↔
        p.fee_percent = 0 ∨ o.amount_in = 0) := by
  have hvalid : ValidPool p := by
    induction hr with
    | refl => exact h0
    | step q o a f hq ha hs ih => exact (success_step_all q o a f ih ha hs).1
  exact ⟨⟨hvalid.1, hvalid.2.1⟩, fun o a f ha hs =>
    (success_step_all p o a f hvalid ha hs).2⟩

/-- C4 witness: the invariant facts instantiated at the driver's pool and
Alice's swap. -/
theorem C4_witness :
    ValidPool my_pool ∧ (0 : ℚ) ≤ aliceOrder.amount_in ∧
    calculate_swap my_pool aliceOrder = .ok (1994000 / 10997, 3 / 10, SUCCESS) ∧
    (0 < my_pool.reserve_a ∧ 0 < my_pool.reserve_b) ∧
    my_pool.constant_k ≤ (applySuccess my_pool aliceOrder (1994000 / 10997)).constant_k ∧
    my_pool.constant_k < (applySuccess my_pool aliceOrder (1994000 / 10997)).constant_k := by
  have hv : ValidPool my_pool :=
    ⟨by norm_num [my_pool], by norm_num [my_pool], by norm_num [my_pool],
      by norm_num [my_pool]⟩
  have h := C4_invariant my_pool my_pool hv (Reachable.refl my_pool)
  have h2 := h.2 aliceOrder _ _ (by norm_num [aliceOrder]) calc_alice
  exact ⟨hv, by norm_num [aliceOrder], calc_alice, h.1, h2.1,
    h2.2.1 (by norm_num [my_pool]) (by norm_num [aliceOrder])⟩

/-- C5 counterexample: a negative-amount order on the driver's pool, and
any order on a pool with fee rate `2`, are both priced silently — the
calculator returns `SUCCESS` triples instead of failing with
`InvalidOrder` / `InvalidPool`. -/
theorem C5_counterexample :
    negativeOrder.amount_in < 0 ∧
    calculate_swap my_pool negativeOrder = .ok (-(1994000 / 199003), -(3 / 200), SUCCESS) ∧
    ¬ (0 ≤ badFeePool.fee_percent ∧ badFeePool.fee_percent < 1) ∧
    calculate_swap badFeePool negativeOrder = .ok (2000 / 201, -10, SUCCESS) := by
  refine ⟨by norm_num [negativeOrder], ?_, by norm_num [badFeePool], ?_⟩
  · simp only [calculate_swap, my_pool, negativeOrder, if_token_A]
    norm_num
  · simp only [calculate_swap, badFeePool, negativeOrder, if_token_A]
    norm_num

/-- C5 (amended): the code performs no input validation at all: neither
the calculator nor the batch run can ever fail with `InvalidOrder` or
`InvalidPool` (those errors exist only in the spec); the only failure
the code produces is the division-by-zero error. -/
theorem C5_no_validation (pool : PoolState) (order : OrderUTxO)
    (os : List OrderUTxO) :
    calculate_swap pool order ≠ .error .invalidOrder ∧
    calculate_swap pool order ≠ .error .invalidPool ∧
    run_batcher pool os ≠ .error .invalidOrder ∧
    run_batcher pool os ≠ .error .invalidPool := by
  refine ⟨fun h => ?_, fun h => ?_, fun h => ?_, fun h => ?_⟩
  · exact CalcError.noConfusion (calculate_swap_error_inv pool order _ h).1
  · exact CalcError.noConfusion (calculate_swap_error_inv pool order _ h).1
  · exact CalcError.noConfusion (run_batcher_error_inv pool os _ h)
  · exact CalcError.noConfusion (run_batcher_error_inv pool os _ h)

/-- C6 counterexample: at a zero denominator (empty in-reserve and
fee-adjusted input zero) the calculator really does divide by zero — it
raises `ZeroDivisionError`, it does not fail with an `InvalidPool`
error. -/
theorem C6_counterexample :
    calculate_swap emptyAPool zeroOrder = .error .zeroDivisionError ∧
    calculate_swap emptyAPool zeroOrder ≠ .error .invalidPool := by
  have h : calculate_swap emptyAPool zeroOrder = .error .zeroDivisionError := by
    simp only [calculate_swap, emptyAPool, zeroOrder, if_token_A]
    norm_num
  exact ⟨h, by simp [h]⟩

/-- C6 (amended): whenever the selected in-reserve plus the fee-adjusted
input is zero, `calculate_swap` fails — by raising the division-by-zero
error, the only failure the code has. -/
theorem C6_zero_denominator (pool : PoolState) (order : OrderUTxO)
    (h : (if order.token_in_type = "A" then pool.reserve_a else pool.reserve_b) +
        order.amount_in * (1 - pool.fee_percent) = 0) :
    calculate_swap pool order = .error .zeroDivisionError := by
  simp only [calculate_swap]
  rw [if_pos h]

/-- C6 witness: the degenerate input (empty A-reserve, zero-amount order)
hits the zero denominator and raises. -/
theorem C6_witness :
    (if zeroOrder.token_in_type = "A" then emptyAPool.reserve_a else emptyAPool.reserve_b) +
        zeroOrder.amount_in * (1 - emptyAPool.fee_percent) = 0 ∧
    calculate_swap emptyAPool zeroOrder = .error .zeroDivisionError := by
  have h0 : (if zeroOrder.token_in_type = "A" then emptyAPool.reserve_a else emptyAPool.reserve_b) +
      zeroOrder.amount_in * (1 - emptyAPool.fee_percent) = 0 := by
    simp only [emptyAPool, zeroOrder, if_token_A]
    norm_num
  exact ⟨h0, C6_zero_denominator emptyAPool zeroOrder h0⟩

/-- C7: a completed batch run emits exactly the settlement records of the
successful orders, in the orders' own relative order, each paying the
requester the computed amount in the token opposite to the input
token — rejected orders contribute nothing. -/
theorem C7_settlements (pool : PoolState) (os : List OrderUTxO)
    (final : PoolState) (recs : List SettlementRecord)
    (h : run_batcher pool os = .ok (final, recs)) :
    recs = (outcomeTrace pool os).filterMap settlementOfOutcome := by
  induction os generalizing pool final recs with
  | nil =>
    simp only [run_batcher, Except.ok.injEq, Prod.mk.injEq] at h
    rw [← h.2]
    simp [outcomeTrace]
  | cons o rest ih =>
    cases hc : calculate_swap pool o with
    | error e =>
      rw [run_batcher_cons_error pool o rest e hc] at h
      exact absurd h (by simp)
    | ok t =>
      obtain ⟨a, f, s⟩ := t
      rcases (calculate_swap_ok_inv pool o a f s hc).2 with ⟨hs, _⟩ | ⟨hs, _⟩
      · subst hs
        rw [run_batcher_cons_rejected pool o rest a f hc] at h
        rw [ih pool final recs h]
        simp only [outcomeTrace, hc, List.filterMap_cons, settlementOfOutcome,
          if_neg (show ¬ (REJECTED = SUCCESS) from rejected_ne_success)]
      · subst hs
        rw [run_batcher_cons_success pool o rest a f hc] at h
        cases hr : run_batcher (applySuccess pool o a) rest with
        | error e =>
          rw [hr, except_bind_err] at h
          exact absurd h (by simp)
        | ok pr =>
          obtain ⟨fp, txs⟩ := pr
          rw [hr, except_bind_ok] at h
          simp only [Except.ok.injEq, Prod.mk.injEq] at h
          rw [← h.2]
          simp only [outcomeTrace, hc, List.filterMap_cons, settlementOfOutcome,
            ite_true, eq_self_iff_true, if_pos rfl]
          rw [ih (applySuccess pool o a) fp txs hr]

/-- C7 witness: the driver's batch emits Alice's and Charlie's records,
exactly the success entries of the outcome trace. -/
theorem C7_witness :
    run_batcher my_pool orders = .ok (finalPool, [aliceSettlement, charlieSettlement]) ∧
    [aliceSettlement, charlieSettlement] =
      (outcomeTrace my_pool orders).filterMap settlementOfOutcome :=
  ⟨run_scenario, C7_settlements my_pool orders finalPool _ run_scenario⟩

/-- C8 counterexample: the code's Alice output is `1994000/10997 ≈ 181.32`,
which exceeds the claimed `≈ 181.23` by more than `0.05`, and the
post-Alice B-reserve `≈ 1818.68` falls short of the claimed `≈ 1818.77`
by more than `0.05` — the claimed approximations are wrong. -/
theorem C8_counterexample :
    calculate_swap my_pool aliceOrder = .ok (1994000 / 10997, 3 / 10, SUCCESS) ∧
    (18123 / 100 : ℚ) + 5 / 100 < 1994000 / 10997 ∧
    applySuccess my_pool aliceOrder (1994000 / 10997) = poolAfterAlice ∧
    poolAfterAlice.reserve_b + 5 / 100 < 181877 / 100 := by
  refine ⟨calc_alice, by norm_num, apply_alice, ?_⟩
  simp only [poolAfterAlice]
  norm_num

/-- C8 (amended): the driver's scenario runs exactly as claimed except
for Alice's figures: Alice succeeds with `amount_out ≈ 181.32` and the
pool becomes `≈ (1100.00, 1818.68)`; Bob is rejected with the pool
unchanged; Charlie succeeds with `amount_out ≈ 29.35`; the settlements
are Alice's and Charlie's records in that order and none for Bob. -/
theorem C8_scenario :
    run_batcher my_pool orders = .ok (finalPool, [aliceSettlement, charlieSettlement]) ∧
    calculate_swap my_pool aliceOrder = .ok (1994000 / 10997, 3 / 10, SUCCESS) ∧
    applySuccess my_pool aliceOrder (1994000 / 10997) = poolAfterAlice ∧
    calculate_swap poolAfterAlice bobOrder = .ok (0, 0, REJECTED) ∧
    calculate_swap poolAfterAlice charlieOrder =
      .ok (12060409900 / 410964009, 3 / 20, SUCCESS) ∧
    ((18132 : ℚ) / 100 < 1994000 / 10997 ∧ (1994000 / 10997 : ℚ) < 18133 / 100) ∧
    poolAfterAlice.reserve_a = 1100 ∧
    ((181867 : ℚ) / 100 < poolAfterAlice.reserve_b ∧
      poolAfterAlice.reserve_b < 181868 / 100) ∧
    ((2934 : ℚ) / 100 < 12060409900 / 410964009 ∧
      (12060409900 / 410964009 : ℚ) < 2935 / 100) := by
  refine ⟨run_scenario, calc_alice, apply_alice, calc_bob, calc_charlie,
    ⟨by norm_num, by norm_num⟩, ?_, ⟨?_, ?_⟩, ⟨by norm_num, by norm_num⟩⟩ <;>
    simp only [poolAfterAlice] <;> norm_num

/-- C9: running the batch through the object reference model (assignment
copies the reference, updates mutate the referenced object, exactly as
Python executes the source) leaves the caller's pool object holding the
final reserves — the input pool and the final pool are one object — and
touches no other object. -/
theorem C9_alias (store : Store) (ref : Nat) (os : List OrderUTxO)
    (final_store : Store) (txs : List SettlementRecord)
    (h : run_batcherRef store ref os = .ok (final_store, txs)) :
    run_batcher (store ref) os = .ok (final_store ref, txs) ∧
    ∀ r, r ≠ ref → final_store r = store r := by
  induction os generalizing store final_store txs with
  | nil =>
    simp only [run_batcherRef, Except.ok.injEq, Prod.mk.injEq] at h
    obtain ⟨h1, h2⟩ := h
    subst h1
    subst h2
    exact ⟨rfl, fun r _ => rfl⟩
  | cons o rest ih =>
    cases hc : calculate_swap (store ref) o with
    | error e =>
      have hstep : run_batcherRef store ref (o :: rest) = .error e := by
        simp only [run_batcherRef, hc, except_bind_err]
      rw [hstep] at h
      exact absurd h (by simp)
    | ok t =>
      obtain ⟨a, f, s⟩ := t
      rcases (calculate_swap_ok_inv _ _ _ _ _ hc).2 with ⟨hs, _⟩ | ⟨hs, _⟩
      · subst hs
        have hstep : run_batcherRef store ref (o :: rest) =
            run_batcherRef store ref rest := by
          simp only [run_batcherRef, hc, except_bind_ok]
          exact if_neg rejected_ne_success
        rw [hstep] at h
        have hih := ih store final_store txs h
        exact ⟨by rw [run_batcher_cons_rejected (store ref) o rest a f hc]; exact hih.1,
          hih.2⟩
      · subst hs
        cases hr : run_batcherRef
            (fun r => if r = ref then applySuccess (store ref) o a else store r)
            ref rest with
        | error e =>
          have hstep : run_batcherRef store ref (o :: rest) = .error e := by
            simp only [run_batcherRef, hc, except_bind_ok, eq_self_iff_true, ite_true]
            rw [hr, except_bind_err]
          rw [hstep] at h
          exact absurd h (by simp)
        | ok pr =>
          obtain ⟨s2, txs2⟩ := pr
          have hstep : run_batcherRef store ref (o :: rest) =
              .ok (s2, settlementRecord o a :: txs2) := by
            simp only [run_batcherRef, hc, except_bind_ok, eq_self_iff_true, ite_true]
            rw [hr, except_bind_ok]
          rw [hstep] at h
          simp only [Except.ok.injEq, Prod.mk.injEq] at h
          obtain ⟨hs2, htxs⟩ := h
          subst hs2
          rw [← htxs]
          have hih := ih _ s2 txs2 hr
          have hmutref :
              (fun r => if r = ref then applySuccess (store ref) o a else store r) ref =
                applySuccess (store ref) o a := by simp
          constructor
          · rw [run_batcher_cons_success (store ref) o rest a f hc, ← hmutref,
              hih.1, except_bind_ok]
          · intro r hrne
            rw [hih.2 r hrne]
            simp [hrne]

/-- C9 witness: a heap with the driver's pool at reference 0, batched
over Alice's order alone: the caller's object at reference 0 ends as the
post-Alice pool, and unrelated references are untouched. -/
theorem C9_witness :
    run_batcherRef store0 0 [aliceOrder] = .ok (store1, [aliceSettlement]) ∧
    run_batcher (store0 0) [aliceOrder] = .ok (store1 0, [aliceSettlement]) ∧
    store1 5 = store0 5 :=
  ⟨refRun_alice,
    (C9_alias store0 0 [aliceOrder] store1 [aliceSettlement] refRun_alice).1,
    (C9_alias store0 0 [aliceOrder] store1 [aliceSettlement] refRun_alice).2 5
      (by decide)⟩

/-- C10: an order whose token tag differs from `"A"` — any tag, not just
`"B"` — is priced exactly like a B-input order (`reserve_b` as the
in-reserve), and on success the batch step credits `reserve_b`, debits
`reserve_a`, and pays out token `"A"`. -/
theorem C10_else_branch (pool : PoolState) (order : OrderUTxO)
    (ht : order.token_in_type ≠ "A") :
    calculate_swap pool order = calculate_swap pool { order with token_in_type := "B" } ∧
    ∀ a f, calculate_swap pool order = .ok (a, f, SUCCESS) →
      applySuccess pool order a =
        { pool with reserve_b := pool.reserve_b + order.amount_in,
                    reserve_a := pool.reserve_a - a } ∧
      settlementRecord order a =
        { to_user := order.user_id, receive := a, token := "A" } ∧
      ∀ rest, run_batcher pool (order :: rest) =
        (do
          let (final_pool, txs) ← run_batcher (applySuccess pool order a) rest
          Except.ok (final_pool, settlementRecord order a :: txs)) := by
  constructor
  · simp only [calculate_swap, ht, if_token_B, ite_false]
  · intro a f h
    exact ⟨by simp [applySuccess, ht], by simp [settlementRecord, ht],
      fun rest => run_batcher_cons_success pool order rest a f h⟩

/-- C10 witness: Dave's order with the unrecognized tag `"X"` prices like
a B-input order, succeeds with `997000/40997 ≈ 24.32` of token A, and the
batch step updates the reserves and settles accordingly. -/
theorem C10_witness :
    daveOrder.token_in_type ≠ "A" ∧
    calculate_swap my_pool daveOrder =
      calculate_swap my_pool { daveOrder with token_in_type := "B" } ∧
    calculate_swap my_pool daveOrder = .ok (997000 / 40997, 3 / 20, SUCCESS) ∧
    applySuccess my_pool daveOrder (997000 / 40997) =
      { my_pool with reserve_b := my_pool.reserve_b + daveOrder.amount_in,
                     reserve_a := my_pool.reserve_a - 997000 / 40997 } ∧
    settlementRecord daveOrder (997000 / 40997) =
      { to_user := daveOrder.user_id, receive := 997000 / 40997, token := "A" } ∧
    run_batcher my_pool (daveOrder :: []) =
      (do
        let (final_pool, txs) ←
          run_batcher (applySuccess my_pool daveOrder (997000 / 40997)) []
        Except.ok (final_pool, settlementRecord daveOrder (997000 / 40997) :: txs)) := by
  have ht : daveOrder.token_in_type ≠ "A" := by simp [daveOrder]
  have h := C10_else_branch my_pool daveOrder ht
  have h2 := h.2 _ _ calc_dave
  exact ⟨ht, h.1, calc_dave, h2.1, h2.2.1, h2.2.2 []⟩

end TexSwap
